import Mathlib

/-!
Verification of the pyfmt format-specification engine.

The Go sources are embedded shallowly: strings are `List Char` (the sources
index byte-wise into ASCII data), machine integers are `Int`/`Nat`, fallible
code returns `Except`/`Option`, and a Go runtime panic (out-of-range index)
is modelled as a distinguished `none`/`panic` outcome.  Every definition is
translated from the corresponding source function, named after it where Lean
allows.
-/

set_option autoImplicit false

namespace Pyfmt

/-- Strings, modelled as lists of characters (the sources are ASCII-only). -/
abbrev Str := List Char

/-- Decimal digit string of a natural number (`strconv`/`fmt` decimal output). -/
def natDec (n : Nat) : Str := Nat.toDigits 10 n

/-- Decimal rendering of an integer, with a leading `-` for negatives. -/
def intDec (n : Int) : Str := if n < 0 then '-' :: natDec n.natAbs else natDec n.natAbs

/-- Value of a nonempty all-digit string, `none` otherwise
(the digit-scanning core of Go `strconv.ParseInt`). -/
def digitsVal (s : Str) : Option Nat :=
  if s = [] then none
  else s.foldlM (fun acc c => if c.isDigit then some (acc * 10 + (c.toNat - 48)) else none) 0

/-- Go `strconv.ParseInt(s, 10, 64)` / `strconv.Atoi`: an optional sign followed by a
nonempty run of decimal digits; anything else is an error (`none`).
(64-bit overflow is ignored: no claim involves values near `2^63`.) -/
def parseIntGo (s : Str) : Option Int :=
  match s with
  | '+' :: rest => (digitsVal rest).map (fun n => (n : Int))
  | '-' :: rest => (digitsVal rest).map (fun n => -(n : Int))
  | _ => (digitsVal s).map (fun n => (n : Int))

/-- Alignment constants, from the `const` block of the buffer file
(`noAlign`, `left`, `right`, `padSign`, `center`). -/
inductive Align where
  | noAlign
  | left
  | right
  | padSign
  | center
deriving DecidableEq, Repr

/-- The effective fill character: the source uses rune `0` as the "unset"
sentinel, resolved to a space (`WriteAlignedString`, `fill` computation). -/
def resolveFill (fillChar : Char) : Char :=
  if fillChar = Char.ofNat 0 then ' ' else fillChar

/-- The source's `padSign` case re-invokes `WriteAlignedString` with
`align = right`; that call always takes the `right` path (its top guard and the
`right` branch), inlined here so the recursion is structural. -/
def writeAlignedRight (s : Str) (width : Int) (fillChar : Char) : Str :=
  if (s.length : Int) ≥ width then s
  else List.replicate (width - s.length).toNat (resolveFill fillChar) ++ s

/-- Embedding of `buffer.WriteAlignedString`, returning the characters appended to the
buffer.  `none` models the Go runtime panic from the unguarded `s[0]` index in
the `padSign` case when `s` is empty. -/
def WriteAlignedString (s : Str) (align : Align) (width : Int) (fillChar : Char) :
    Option Str :=
  if (s.length : Int) ≥ width ∨ align = Align.noAlign then some s
  else
    let fill := resolveFill fillChar
    match align with
    | Align.noAlign => some s
    | Align.right => some (List.replicate (width - s.length).toNat fill ++ s)
    | Align.left => some (s ++ List.replicate (width - s.length).toNat fill)
    | Align.center =>
      let prePad := (width - s.length) / 2
      some (List.replicate prePad.toNat fill ++ s ++
        List.replicate (width - s.length - prePad).toNat fill)
    | Align.padSign =>
      match s with
      | [] => none
      | c :: rest =>
        if c = '-' ∨ c = '+' then some (c :: writeAlignedRight rest (width - 1) fillChar)
        else some (writeAlignedRight s width fillChar)

/-! ## Flag state machine (`splitFlags`, render.go) -/

/-- The alignment tokens `< > = ^` recognised by `splitFlags`' align state. -/
def isAlignChar (c : Char) : Bool := c = '<' ∨ c = '>' ∨ c = '=' ∨ c = '^'

/-- The sign tokens `+ - space` recognised by the sign state. -/
def isSignChar (c : Char) : Bool := c = '+' ∨ c = '-' ∨ c = ' '

/-- Membership in `validFlags`: the verb letters `bdoxXeEfFgGrts%`. -/
def isValidVerb (c : Char) : Bool :=
  c = 'b' ∨ c = 'd' ∨ c = 'o' ∨ c = 'x' ∨ c = 'X' ∨ c = 'e' ∨ c = 'E' ∨ c = 'f' ∨
  c = 'F' ∨ c = 'g' ∨ c = 'G' ∨ c = 'r' ∨ c = 't' ∨ c = 's' ∨ c = '%'

/-- The slice `flags[i:j]` as a list slice. -/
def slice (s : Str) (i j : Nat) : Str := (s.drop i).take (j - i)

/-- Index after `alignState`: if the second character exists and is an
alignment token, two characters (fill + align) are consumed; else if the first
character is an alignment token, one; else none.  (Invoked only on nonempty
input, mirroring the loop guard.) -/
def alignEnd (flags : Str) : Nat :=
  if 1 < flags.length ∧ isAlignChar (flags.getD 1 ' ') then 2
  else if isAlignChar (flags.getD 0 ' ') then 1
  else 0

/-- A single-character optional consumer: the sign/radix/zero-pad/verb states
each consume one character at `i` when the predicate holds and `i` is in
bounds (the loop guard `i < end`). -/
def stepIf (p : Char → Bool) (flags : Str) (i : Nat) : Nat :=
  if i < flags.length ∧ p (flags.getD i ' ') then i + 1 else i

/-- Index after the maximal run of decimal digits starting at `i`
(`widthState`'s inner loop, `isDigit` table = `'0'..'9'`). -/
def digitEnd (flags : Str) (i : Nat) : Nat :=
  i + ((flags.drop i).takeWhile Char.isDigit).length

/-- Index after `precisionState`: a `.` followed by the maximal digit run. -/
def precEnd (flags : Str) (i : Nat) : Nat :=
  if i < flags.length ∧ flags.getD i ' ' = '.' then digitEnd flags (i + 1) else i

/-- The index reached after all seven states of the `splitFlags` loop have run
(0 for the empty string, which returns before the loop). -/
def consumedEnd (flags : Str) : Nat :=
  if flags = [] then 0
  else
    stepIf isValidVerb flags
      (precEnd flags
        (digitEnd flags
          (stepIf (fun c => c = '0') flags
            (stepIf (fun c => c = '#') flags
              (stepIf isSignChar flags (alignEnd flags))))))

/-- Result of `splitFlags`: the seven substring pieces plus the error from the
`default` (over-run) state. -/
structure SplitFlags where
  align : Str := []
  sign : Str := []
  radix : Str := []
  zeroPad : Str := []
  minWidth : Str := []
  precision : Str := []
  verb : Str := []
  err : Option Str := none
deriving DecidableEq, Repr

/-- Embedding of `splitFlags` (render.go): the staged state machine over the format
specification.  Each state either consumes its token(s) at the current index
or is skipped; reaching the `default` state with input left yields the
`Could not decode format specification` error. -/
def splitFlags (flags : Str) : SplitFlags :=
  if flags = [] then {}
  else
    let i1 := alignEnd flags
    let i2 := stepIf isSignChar flags i1
    let i3 := stepIf (fun c => c = '#') flags i2
    let i4 := stepIf (fun c => c = '0') flags i3
    let i5 := digitEnd flags i4
    let i6 := precEnd flags i5
    let i7 := stepIf isValidVerb flags i6
    { align := slice flags 0 i1
      sign := slice flags i1 i2
      radix := slice flags i2 i3
      zeroPad := slice flags i3 i4
      minWidth := slice flags i4 i5
      precision := slice flags i5 i6
      verb := slice flags i6 i7
      err := if i7 < flags.length then
          some ("Could not decode format specification: ".toList ++ flags)
        else none }

/-! ## Directive (`flags` struct) and `parseFlags` (render.go) -/

/-- The `flags` struct of render.go.  Zero values as in Go: rune `0`
(`Char.ofNat 0`) for the unset fill character, empty strings, `false`. -/
structure Flags where
  fillChar : Char := Char.ofNat 0
  align : Align := Align.noAlign
  sign : Str := []
  showRadix : Bool := false
  minWidth : Str := []
  precision : Str := []
  renderVerb : Str := []
  percent : Bool := false
deriving DecidableEq, Repr

/-- Embedding of `render.parseFlags` (render.go): populate a fresh directive from the split
pieces.  The two `panic("Unreachable…")` sites in the source (a multi-character
alignment remainder, an unrecognised verb surviving `validFlags`) are mapped to
an error value; both are genuinely unreachable given `splitFlags`' output. -/
def parseFlags (flagstr : Str) : Except Str Flags :=
  let r0 : Flags := { renderVerb := ['v'] }
  if flagstr = [] then Except.ok r0
  else
    let sf := splitFlags flagstr
    match sf.err with
    | some e =>
      Except.error ("Invalid flag pattern: ".toList ++ flagstr ++ ", ".toList ++ e)
    | none =>
      let (fillChar, alignStr) : Char × Str :=
        if sf.align.length > 1 then (sf.align.headD (Char.ofNat 0), sf.align.tail)
        else (Char.ofNat 0, sf.align)
      let alignRes : Option Align :=
        match alignStr with
        | [] => some r0.align
        | ['<'] => some Align.left
        | ['>'] => some Align.right
        | ['='] => some Align.padSign
        | ['^'] => some Align.center
        | _ => none
      match alignRes with
      | none => Except.error "Unreachable, this should never happen.".toList
      | some align0 =>
        let sign := if sf.sign ≠ [] ∧ sf.sign ≠ ['-'] then sf.sign else []
        let showRadix := sf.radix = ['#']
        let (align1, fillChar1) :=
          if sf.zeroPad ≠ [] then
            ((if alignStr = [] then Align.padSign else align0),
             (if fillChar = Char.ofNat 0 then '0' else fillChar))
          else (align0, fillChar)
        let r1 : Flags :=
          { fillChar := fillChar1, align := align1, sign := sign,
            showRadix := showRadix, minWidth := sf.minWidth,
            precision := sf.precision, renderVerb := ['v'] }
        match sf.verb with
        | [] => Except.ok r1
        | [v] =>
          if v = 'b' ∨ v = 'o' ∨ v = 'x' ∨ v = 'X' ∨ v = 'e' ∨ v = 'E' ∨ v = 'f' ∨
             v = 'F' ∨ v = 'g' ∨ v = 'G' then
            Except.ok { r1 with renderVerb := [v] }
          else if v = 'd' then
            Except.ok { r1 with renderVerb := ['d'], showRadix := false }
          else if v = '%' then
            Except.ok { r1 with percent := true, renderVerb := ['f'] }
          else if v = 'r' then
            Except.ok { r1 with renderVerb := "#v".toList }
          else if v = 't' then
            Except.ok { r1 with renderVerb := ['T'] }
          else if v = 's' then
            Except.ok { r1 with renderVerb := "+v".toList }
          else Except.error "Unreachable, this should never happen.".toList
        | _ => Except.error "Unreachable, this should never happen.".toList

/-! ## Host formatting primitive (`fmt.Sprintf`)

The renderer delegates the number-to-string conversion to Go's `fmt` package,
which the specification treats as an external collaborator (§1 OUT OF SCOPE).
It is modelled here from the documented `fmt` semantics for the verbs and
value classes the claims exercise; floating-point arguments appear as exact
rationals `num/den` (every claim input is exactly representable, so the
binary-float rounding mode is immaterial). -/

/-- Argument values handed to the renderer (`interface{}` in the source). -/
inductive Value where
  | int (n : Int)
  | str (s : Str)
  | float (num : Int) (den : Int)
deriving DecidableEq, Repr

/-- Go's sign flags on a numeric rendering: negatives carry `-`; flag `+`
forces `+` and flag space forces a space on non-negatives. -/
def signWrap (sign : Str) (n : Int) (digits : Str) : Str :=
  if n < 0 then '-' :: digits
  else if sign = ['+'] then '+' :: digits
  else if sign = [' '] then ' ' :: digits
  else digits

/-- Round `num/den` (with `den > 0`) to the nearest integer, half away from
zero on the magnitude — Go's `%f` rounds the binary double to nearest; at the
exact inputs used by the claims no tie-breaking is exercised. -/
def ratRoundMag (num : Int) (den : Int) : Nat := ((2 * |num| + den).fdiv (2 * den)).toNat

/-- Go `%.pf` fixed-point rendering of the exact rational `num/den`. -/
def fixedFmt (num : Int) (den : Int) (prec : Nat) : Str :=
  let m := ratRoundMag (num * (10 : Int) ^ prec) den
  let ds := natDec m
  let ds := if ds.length < prec + 1 then List.replicate (prec + 1 - ds.length) '0' ++ ds else ds
  let body := if prec = 0 then ds else ds.take (ds.length - prec) ++ '.' :: ds.drop (ds.length - prec)
  if num < 0 then '-' :: body else body

/-- Precision digits from a `.N` precision string; Go treats `%.f` as
precision 0 and no precision string as the `%f` default of 6. -/
def precOfStr (precision : Str) : Nat :=
  match precision with
  | [] => 6
  | '.' :: ds => (digitsVal ds).getD 0
  | _ => 6

/-- Width from a width digit-string, 0 when absent. -/
def widthOfStr (minWidth : Str) : Nat :=
  match digitsVal minWidth with
  | some n => n
  | none => 0

/-- Left-pad with spaces to a minimum width (Go's default numeric padding,
used by `%f`-family verbs when the renderer passes the width through). -/
def padLeftSpaces (w : Nat) (s : Str) : Str :=
  if s.length < w then List.replicate (w - s.length) ' ' ++ s else s

/-- Model of `fmt.Sprintf("%"+sign+radix+minWidth+precision+verb, val)` for the
verb/value combinations reachable from the claims.  Unmodelled combinations
produce a `%!`-style placeholder (Go would also produce a `%!…` notice). -/
def sprintf (sign radix minWidth precision verb : Str) (val : Value) : Str :=
  match verb, val with
  | ['v'], Value.str s => s
  | ['v'], Value.int n => signWrap sign n (natDec n.natAbs)
  | ['d'], Value.int n => signWrap sign n (natDec n.natAbs)
  | ['b'], Value.int n => signWrap sign n (Nat.toDigits 2 n.natAbs)
  | ['o'], Value.int n =>
    if radix = ['#'] then signWrap sign n ('0' :: 'o' :: Nat.toDigits 8 n.natAbs)
    else signWrap sign n (Nat.toDigits 8 n.natAbs)
  | ['x'], Value.int n =>
    if radix = ['#'] then signWrap sign n ('0' :: 'x' :: Nat.toDigits 16 n.natAbs)
    else signWrap sign n (Nat.toDigits 16 n.natAbs)
  | ['X'], Value.int n =>
    if radix = ['#'] then signWrap sign n ('0' :: 'X' :: (Nat.toDigits 16 n.natAbs).map Char.toUpper)
    else signWrap sign n ((Nat.toDigits 16 n.natAbs).map Char.toUpper)
  | ['f'], Value.float num den =>
    let body := fixedFmt num den (precOfStr precision)
    let signed :=
      if num < 0 then body
      else if sign = ['+'] then '+' :: body
      else if sign = [' '] then ' ' :: body
      else body
    padLeftSpaces (widthOfStr minWidth) signed
  | _, _ => "%!".toList

/-! ## Value renderer (`render.render`, render.go) -/

/-- Outcome of a renderer step: the appended text, a returned error, or a Go
runtime panic (out-of-range index). -/
inductive RRes where
  | ok (out : Str)
  | err (msg : Str)
  | panic
deriving DecidableEq, Repr

/-- Embedding of `render.setupPercent`: raise the effective precision by two (default `.8`
when unset) before fixed-point formatting. -/
def setupPercent (precision : Str) : Except Str Str :=
  if precision = [] then Except.ok ".8".toList
  else
    match parseIntGo (precision.drop 1) with
    | none => Except.error "setupPercent: invalid precision".toList
    | some k => Except.ok ('.' :: intDec (k + 2))

/-- Embedding of `transformPercent`: shift the decimal point of an already-rendered
fixed-point string two places right and append `%`.  `SplitN(p, ".", 2)` is
modelled by splitting at the first `.`; the unguarded `p[0]` and
`parts[1][…]` indexes become `RRes.panic`. -/
def transformPercent (p : Str) : RRes :=
  match p with
  | [] => RRes.panic
  | _ =>
    let (sign, p1) : Str × Str :=
      if p.headD ' ' = '-' then (['-'], p.drop 1) else ([], p)
    let intPart := p1.takeWhile (fun c => c ≠ '.')
    let rest := p1.dropWhile (fun c => c ≠ '.')
    if rest ≠ [] then
      let frac := rest.drop 1
      match parseIntGo intPart with
      | none => RRes.err ("Couldn't parse format prefix from: ".toList ++ p1)
      | some pv =>
        if frac.length < 2 then RRes.panic
        else
          let suffix := if frac.drop 2 ≠ [] then '.' :: frac.drop 2 else []
          if pv = 0 then
            if frac.headD ' ' = '0' then
              RRes.ok (sign ++ (frac.drop 1).take 1 ++ suffix ++ ['%'])
            else RRes.ok (sign ++ frac.take 2 ++ suffix ++ ['%'])
          else if intPart.length = 1 then
            RRes.ok (sign ++ intPart ++ frac.take 2 ++ suffix ++ ['%'])
          else RRes.ok (sign ++ intPart ++ frac.take 2 ++ suffix ++ ['%'])
    else
      match parseIntGo p1 with
      | none => RRes.ok (p1 ++ ['%'])
      | some _ => RRes.ok (p1 ++ "00%".toList)

/-- The radix-prefix splice of `render.render`: strip leading spaces and (when
the whole string is not exactly the fill character) leading fill characters,
then re-insert the literal prefix after any leading sign. -/
def spliceRadix (pfx : Str) (fillChar : Char) (sign : Str) (s : Str) : Str :=
  let s1 := s.dropWhile (fun c => c = ' ')
  let s2 := if s1 ≠ [fillChar] then s1.dropWhile (fun c => c = fillChar) else s1
  match s2 with
  | '-' :: rest => '-' :: (pfx ++ rest)
  | '+' :: rest => '+' :: (pfx ++ rest)
  | _ => if sign = [' '] then ' ' :: (pfx ++ s2) else pfx ++ s2

/-- Go `strings.TrimSpace`. -/
def trimSpaceGo (s : Str) : Str :=
  ((s.dropWhile Char.isWhitespace).reverse.dropWhile Char.isWhitespace).reverse

/-- The final-write tail of `render.render` (sign peeling for left/pad-sign
alignment, the radix/pad-sign split write, and the aligned write).  Returns
the text appended to the buffer; `none` models the panic from `str[0:2]` on a
short string or from `WriteAlignedString`. -/
def finalWrite (str : Str) (align : Align) (width : Int) (fillChar : Char)
    (sign : Str) (showRadix : Bool) : Option Str :=
  let (pre, str2, width2) : Str × Str × Int :=
    match str with
    | [] => ([], [], width)
    | c :: rest =>
      if c ≠ '(' ∧ (align = Align.left ∨ align = Align.padSign) then
        if c = '-' then (['-'], rest, width - 1)
        else if c = '+' then (['+'], rest, width - 1)
        else if c = ' ' then ([' '], rest, width - 1)
        else (sign, c :: rest, width)
      else ([], c :: rest, width)
  if showRadix ∧ align = Align.padSign then
    if str2.length < 2 then none
    else (WriteAlignedString (str2.drop 2) align (width2 - 2) fillChar).map
      (fun t => pre ++ str2.take 2 ++ t)
  else (WriteAlignedString str2 align width2 fillChar).map (fun t => pre ++ t)

/-- Embedding of `render.render`: the full per-field rendering pipeline, returning the text
appended to the buffer for this field. -/
def render (r : Flags) (val : Value) : RRes :=
  match (if r.percent then setupPercent r.precision else Except.ok r.precision) with
  | Except.error e => RRes.err e
  | Except.ok precision =>
    let (pfx, radix) : Str × Str :=
      if r.showRadix then
        if r.renderVerb = ['x'] ∨ r.renderVerb = ['X'] then ([], ['#'])
        else if r.renderVerb = ['b'] then ("0b".toList, [])
        else if r.renderVerb = ['o'] then ("0o".toList, [])
        else ([], [])
      else ([], [])
    match (if r.minWidth = [] then Except.ok (0 : Int)
           else match parseIntGo r.minWidth with
             | some w => Except.ok w
             | none =>
               Except.error ("Can't convert width ".toList ++ r.minWidth ++ " to int".toList)) with
    | Except.error e => RRes.err e
    | Except.ok width =>
      let isFloatVerb := r.renderVerb = ['f'] ∨ r.renderVerb = ['F'] ∨
        r.renderVerb = ['g'] ∨ r.renderVerb = ['G'] ∨ r.renderVerb = ['e'] ∨
        r.renderVerb = ['E']
      let minWidth := if isFloatVerb then r.minWidth else []
      let str0 := sprintf r.sign radix minWidth precision r.renderVerb val
      let str1 := if pfx ≠ [] then spliceRadix pfx r.fillChar r.sign str0 else str0
      let afterFloat : RRes :=
        if isFloatVerb then
          let s := trimSpaceGo str1
          if r.sign = [' '] then
            match s with
            | [] => RRes.panic
            | c :: _ => if c ≠ '-' then RRes.ok (' ' :: s) else RRes.ok s
          else RRes.ok s
        else RRes.ok str1
      match afterFloat with
      | RRes.err e => RRes.err e
      | RRes.panic => RRes.panic
      | RRes.ok str2 =>
        match (if r.percent then transformPercent str2 else RRes.ok str2) with
        | RRes.err e => RRes.err e
        | RRes.panic => RRes.panic
        | RRes.ok str3 =>
          match finalWrite str3 r.align width r.fillChar r.sign r.showRadix with
          | none => RRes.panic
          | some out => RRes.ok out

/-! ## Template driver (`doFormat`, `Fmt`, `Format`) -/

/-- The literal-scanning inner loop of `doFormat`: consume characters up to
the next `{` (or end of template), collapsing `}}` to `}` and rejecting a
lone `}`.  `buf` is the buffer so far and `cur` the pending chunk
(`format[cachei:i]`); on success returns the updated buffer and the remaining
input (beginning with `{` if any); on error (which the source raises before
writing the pending chunk) returns the buffer at that point. -/
def scanLiteral (rem : Str) (buf cur : Str) : Except (Str × Str) (Str × Str) :=
  match rem with
  | [] => Except.ok (buf ++ cur, [])
  | c :: rest =>
    if c = '\x7b' then Except.ok (buf ++ cur, c :: rest)
    else if c = '\x7d' then
      match rest with
      | '\x7d' :: rest2 => scanLiteral rest2 (buf ++ cur) ['\x7d']
      | _ => Except.error (buf, "Single '\x7d' encountered in format string".toList)
    else scanLiteral rest buf (cur ++ [c])

/-- The field-body scan of `doFormat` (`for i < end && format[i] != '\x7d'`):
returns the body and the input after the closing `}`, or `none` when the
template ends first — in which case the source evaluates `format[i]` at
`i = end` and panics. -/
def scanFieldBody (rem : Str) (acc : Str) : Option (Str × Str) :=
  match rem with
  | [] => none
  | c :: rest => if c = '\x7d' then some (acc, rest) else scanFieldBody rest (acc ++ [c])

/-- Embedding of `splitFormat`: split a field body at the first `:` into name and spec. -/
def splitFormat (field : Str) : Str × Str :=
  (field.takeWhile (fun c => c ≠ ':'), (field.dropWhile (fun c => c ≠ ':')).drop 1)

/-- Modelled from the spec: `getElement` (its source file is not under `src/`;
only its caller `getArg` is).  Per §4.4/§6, an empty name resolves to the next
positional argument at the internal cursor, and a non-empty name is resolved
by index for the positional entry point (mirroring the `useList` branch of
`getArg` in the second driver file); missing indices are reported naming the
index and the valid range. -/
def getElement (name : Str) (listPos : Nat) (args : List Value) : Except Str Value :=
  if name = [] then
    if h : listPos < args.length then Except.ok (args.get ⟨listPos, h⟩)
    else Except.error ("Format index (".toList ++ natDec listPos ++ ") out of range (".toList ++
      natDec args.length ++ ")".toList)
  else
    match parseIntGo name with
    | none => Except.error ("Invalid index: ".toList ++ name)
    | some p =>
      if h : 0 ≤ p ∧ p.toNat < args.length then Except.ok (args.get ⟨p.toNat, h.2⟩)
      else Except.error ("Format index (".toList ++ intDec p ++ ") out of range (".toList ++
        natDec args.length ++ ")".toList)

/-- Embedding of `ff.getArg`: resolve, then advance the positional cursor exactly when the
name was empty. -/
def getArg (name : Str) (listPos : Nat) (args : List Value) : Except Str Value × Nat :=
  (getElement name listPos args, if name = [] then listPos + 1 else listPos)

/-- Outcome of `doFormat`, keeping the partial buffer contents in every case
(the buffer is owned by the `ff` struct and survives an error return). -/
inductive DoRes where
  | ok (buf : Str)
  | err (buf : Str) (msg : Str)
  | panic (buf : Str)
deriving DecidableEq, Repr

/-- The main loop of `ff.doFormat` (first driver file, the one wired to
`parseFlags`/`render`).  `fuel` only bounds the recursion: each iteration
consumes at least one character, so `template.length + 1` (as passed by
`doFormat`) can never run out; the fuel-exhaustion branch is unreachable.

The two `DoRes.panic` branches are the source's unguarded `format[i]` reads at
`i = end`: after a trailing `{`, and after the field scan when no `}` was
found (there the `return errors.New("Single '\x7b' encountered…")` under
`format[i] != '\x7d'` is unreachable for `i < end`, since the scan loop stops
only at a `}`). -/
def doFormatLoop (args : List Value) : Nat → Str → Nat → Str → DoRes
  | 0, _, _, buf => DoRes.panic buf
  | Nat.succ fuel, rem, listPos, buf =>
    match scanLiteral rem buf [] with
    | Except.error (buf1, e) => DoRes.err buf1 e
    | Except.ok (buf1, rem1) =>
      match rem1 with
      | [] => DoRes.ok buf1
      | _ :: rest =>
        match rest with
        | [] => DoRes.panic buf1
        | c :: rest2 =>
          if c = '\x7b' then doFormatLoop args fuel rest2 listPos (buf1 ++ ['\x7b'])
          else
            match scanFieldBody rest [] with
            | none => DoRes.panic buf1
            | some (field, remAfter) =>
              let (name, spec) := splitFormat field
              let (res, listPos1) := getArg name listPos args
              match res with
              | Except.error e => DoRes.err buf1 e
              | Except.ok v =>
                match parseFlags spec with
                | Except.error e => DoRes.err buf1 e
                | Except.ok fl =>
                  match render fl v with
                  | RRes.err e => DoRes.err buf1 e
                  | RRes.panic => DoRes.panic buf1
                  | RRes.ok out => doFormatLoop args fuel remAfter listPos1 (buf1 ++ out)

/-- Embedding of `ff.doFormat` on a fresh formatter state. -/
def doFormat (format : Str) (args : List Value) : DoRes :=
  doFormatLoop args (format.length + 1) format 0 []

/-- Result of the public entry points. -/
inductive FmtRes where
  | ok (s : Str)
  | err (msg : Str)
  | panic
deriving DecidableEq, Repr

/-- Embedding of `Fmt`: run `doFormat` and return the buffer, or the error with an empty
string (`return "", err`). -/
def Fmt (format : Str) (args : List Value) : FmtRes :=
  match doFormat format args with
  | DoRes.ok buf => FmtRes.ok buf
  | DoRes.err _ msg => FmtRes.err msg
  | DoRes.panic _ => FmtRes.panic

/-! ## The second driver file (`Format`/`FormatMap`/`FormatStruct`)

Its `doFormat` shares the tokenizer verbatim but treats the whole field body
as the argument name (no `splitFormat`/`parseFlags` call) and renders with a
freshly cleared directive.  Its three argument sources differ only in
`getArg`, abstracted here as a `resolve` function over a caller-owned resolver
state `σ` (positional cursor, name map, or record fields — §2's external
Argument Resolver). -/

/-- The `doFormat` loop of the second driver file, over an abstract resolver. -/
def doFormatLoop1 {σ : Type} (resolve : Str → σ → Except Str (Value × σ)) :
    Nat → Str → σ → Str → DoRes
  | 0, _, _, buf => DoRes.panic buf
  | Nat.succ fuel, rem, st, buf =>
    match scanLiteral rem buf [] with
    | Except.error (buf1, e) => DoRes.err buf1 e
    | Except.ok (buf1, rem1) =>
      match rem1 with
      | [] => DoRes.ok buf1
      | _ :: rest =>
        match rest with
        | [] => DoRes.panic buf1
        | c :: rest2 =>
          if c = '\x7b' then doFormatLoop1 resolve fuel rest2 st (buf1 ++ ['\x7b'])
          else
            match scanFieldBody rest [] with
            | none => DoRes.panic buf1
            | some (argName, remAfter) =>
              match resolve argName st with
              | Except.error e => DoRes.err buf1 e
              | Except.ok (v, st1) =>
                match render {} v with
                | RRes.err e => DoRes.err buf1 e
                | RRes.panic => DoRes.panic buf1
                | RRes.ok out => doFormatLoop1 resolve fuel remAfter st1 (buf1 ++ out)

/-- The `Format`/`FormatMap`/`FormatStruct` shape: run the second driver's
`doFormat` and return the buffer, or the error with an empty string. -/
def formatWith {σ : Type} (resolve : Str → σ → Except Str (Value × σ))
    (format : Str) (st : σ) : FmtRes :=
  match doFormatLoop1 resolve (format.length + 1) format st [] with
  | DoRes.ok buf => FmtRes.ok buf
  | DoRes.err _ msg => FmtRes.err msg
  | DoRes.panic _ => FmtRes.panic

/-! ## Basic lemmas -/

/-- Pieces of a `slice` chain concatenate back to the longer slice. -/
theorem slice_append (s : Str) (i j k : Nat) (hij : i ≤ j) (hjk : j ≤ k) :
    slice s i j ++ slice s j k = slice s i k := by
  unfold slice
  have hdrop : s.drop j = (s.drop i).drop (j - i) := by
    rw [List.drop_drop]
    congr 1
    omega
  rw [hdrop, ← List.take_add]
  congr 1
  omega

/-- Dropping zero then taking the length is the identity. -/
theorem slice_zero_length (s : Str) : slice s 0 s.length = s := by
  simp [slice]

theorem stepIf_ge (p : Char → Bool) (s : Str) (i : Nat) : i ≤ stepIf p s i := by
  unfold stepIf
  split <;> omega

theorem stepIf_le (p : Char → Bool) (s : Str) (i : Nat) (h : i ≤ s.length) :
    stepIf p s i ≤ s.length := by
  unfold stepIf
  split
  · omega
  · exact h

theorem digitEnd_ge (s : Str) (i : Nat) : i ≤ digitEnd s i := by
  unfold digitEnd
  omega

theorem takeWhile_length_le (p : Char → Bool) (l : Str) :
    (l.takeWhile p).length ≤ l.length := by
  induction l with
  | nil => simp
  | cons a t ih =>
    simp only [List.takeWhile]
    split
    · simpa using ih
    · simp

theorem digitEnd_le (s : Str) (i : Nat) (h : i ≤ s.length) : digitEnd s i ≤ s.length := by
  unfold digitEnd
  have h1 : ((s.drop i).takeWhile Char.isDigit).length ≤ (s.drop i).length :=
    takeWhile_length_le _ _
  have h2 : (s.drop i).length = s.length - i := List.length_drop _ _
  omega

theorem precEnd_ge (s : Str) (i : Nat) : i ≤ precEnd s i := by
  unfold precEnd
  split
  · have := digitEnd_ge s (i + 1)
    omega
  · omega

theorem precEnd_le (s : Str) (i : Nat) (h : i ≤ s.length) : precEnd s i ≤ s.length := by
  unfold precEnd
  split
  · rename_i hc
    exact digitEnd_le s (i + 1) (by omega)
  · exact h

theorem alignEnd_le (s : Str) (h : s ≠ []) : alignEnd s ≤ s.length := by
  unfold alignEnd
  have hl : 1 ≤ s.length := by
    cases s with
    | nil => exact absurd rfl h
    | cons a t => simp
  split
  · rename_i hc
    omega
  · split <;> omega

/-! ## Claim C9 -/

/-- C9: parser partition invariant — whenever `splitFlags` returns without
error, its seven pieces are consumed left to right from disjoint contiguous
ranges of the input (witnessed by a monotone index chain reaching the end of
the string), and their concatenation equals the input exactly. -/
theorem splitFlags_partition (flags : Str) (h : (splitFlags flags).err = none) :
    ∃ i1 i2 i3 i4 i5 i6 i7 : Nat,
      i1 ≤ i2 ∧ i2 ≤ i3 ∧ i3 ≤ i4 ∧ i4 ≤ i5 ∧ i5 ≤ i6 ∧ i6 ≤ i7 ∧ i7 = flags.length ∧
      (splitFlags flags).align = slice flags 0 i1 ∧
      (splitFlags flags).sign = slice flags i1 i2 ∧
      (splitFlags flags).radix = slice flags i2 i3 ∧
      (splitFlags flags).zeroPad = slice flags i3 i4 ∧
      (splitFlags flags).minWidth = slice flags i4 i5 ∧
      (splitFlags flags).precision = slice flags i5 i6 ∧
      (splitFlags flags).verb = slice flags i6 i7 ∧
      (splitFlags flags).align ++ (splitFlags flags).sign ++ (splitFlags flags).radix ++
        (splitFlags flags).zeroPad ++ (splitFlags flags).minWidth ++
        (splitFlags flags).precision ++ (splitFlags flags).verb = flags := by
  by_cases hf : flags = []
  · subst hf
    refine ⟨0, 0, 0, 0, 0, 0, 0, ?_⟩
    simp [splitFlags, slice]
  · have hsplit : splitFlags flags =
        { align := slice flags 0 (alignEnd flags)
          sign := slice flags (alignEnd flags) (stepIf isSignChar flags (alignEnd flags))
          radix := slice flags (stepIf isSignChar flags (alignEnd flags))
            (stepIf (fun c => c = '#') flags (stepIf isSignChar flags (alignEnd flags)))
          zeroPad := slice flags
            (stepIf (fun c => c = '#') flags (stepIf isSignChar flags (alignEnd flags)))
            (stepIf (fun c => c = '0') flags
              (stepIf (fun c => c = '#') flags (stepIf isSignChar flags (alignEnd flags))))
          minWidth := slice flags
            (stepIf (fun c => c = '0') flags
              (stepIf (fun c => c = '#') flags (stepIf isSignChar flags (alignEnd flags))))
            (digitEnd flags
              (stepIf (fun c => c = '0') flags
                (stepIf (fun c => c = '#') flags (stepIf isSignChar flags (alignEnd flags)))))
          precision := slice flags
            (digitEnd flags
              (stepIf (fun c => c = '0') flags
                (stepIf (fun c => c = '#') flags (stepIf isSignChar flags (alignEnd flags)))))
            (precEnd flags
              (digitEnd flags
                (stepIf (fun c => c = '0') flags
                  (stepIf (fun c => c = '#') flags (stepIf isSignChar flags (alignEnd flags))))))
          verb := slice flags
            (precEnd flags
              (digitEnd flags
                (stepIf (fun c => c = '0') flags
                  (stepIf (fun c => c = '#') flags (stepIf isSignChar flags (alignEnd flags))))))
            (stepIf isValidVerb flags
              (precEnd flags
                (digitEnd flags
                  (stepIf (fun c => c = '0') flags
                    (stepIf (fun c => c = '#') flags (stepIf isSignChar flags (alignEnd flags)))))))
          err := if (stepIf isValidVerb flags
              (precEnd flags
                (digitEnd flags
                  (stepIf (fun c => c = '0') flags
                    (stepIf (fun c => c = '#') flags
                      (stepIf isSignChar flags (alignEnd flags))))))) < flags.length then
              some ("Could not decode format specification: ".toList ++ flags)
            else none } := by
      simp only [splitFlags, if_neg hf]
    set j1 := alignEnd flags with hj1
    set j2 := stepIf isSignChar flags j1 with hj2
    set j3 := stepIf (fun c => c = '#') flags j2 with hj3
    set j4 := stepIf (fun c => c = '0') flags j3 with hj4
    set j5 := digitEnd flags j4 with hj5
    set j6 := precEnd flags j5 with hj6
    set j7 := stepIf isValidVerb flags j6 with hj7
    have h12 : j1 ≤ j2 := stepIf_ge _ _ _
    have h23 : j2 ≤ j3 := stepIf_ge _ _ _
    have h34 : j3 ≤ j4 := stepIf_ge _ _ _
    have h45 : j4 ≤ j5 := digitEnd_ge _ _
    have h56 : j5 ≤ j6 := precEnd_ge _ _
    have h67 : j6 ≤ j7 := stepIf_ge _ _ _
    have hl1 : j1 ≤ flags.length := alignEnd_le _ hf
    have hl2 : j2 ≤ flags.length := stepIf_le _ _ _ hl1
    have hl3 : j3 ≤ flags.length := stepIf_le _ _ _ hl2
    have hl4 : j4 ≤ flags.length := stepIf_le _ _ _ hl3
    have hl5 : j5 ≤ flags.length := digitEnd_le _ _ hl4
    have hl6 : j6 ≤ flags.length := precEnd_le _ _ hl5
    have hl7 : j7 ≤ flags.length := stepIf_le _ _ _ hl6
    have herr : ¬ (j7 < flags.length) := by
      intro hlt
      rw [hsplit] at h
      simp only [if_pos hlt] at h
      exact Option.noConfusion h
    have h7 : j7 = flags.length := by omega
    refine ⟨j1, j2, j3, j4, j5, j6, j7, h12, h23, h34, h45, h56, h67, h7, ?_⟩
    rw [hsplit]
    refine ⟨rfl, rfl, rfl, rfl, rfl, rfl, rfl, ?_⟩
    have c2 : slice flags 0 j1 ++ slice flags j1 j2 = slice flags 0 j2 :=
      slice_append _ _ _ _ (by omega) h12
    have c3 : slice flags 0 j2 ++ slice flags j2 j3 = slice flags 0 j3 :=
      slice_append _ _ _ _ (by omega) h23
    have c4 : slice flags 0 j3 ++ slice flags j3 j4 = slice flags 0 j4 :=
      slice_append _ _ _ _ (by omega) h34
    have c5 : slice flags 0 j4 ++ slice flags j4 j5 = slice flags 0 j5 :=
      slice_append _ _ _ _ (by omega) h45
    have c6 : slice flags 0 j5 ++ slice flags j5 j6 = slice flags 0 j6 :=
      slice_append _ _ _ _ (by omega) h56
    have c7 : slice flags 0 j6 ++ slice flags j6 j7 = slice flags 0 j7 :=
      slice_append _ _ _ _ (by omega) h67
    calc slice flags 0 j1 ++ slice flags j1 j2 ++ slice flags j2 j3 ++ slice flags j3 j4 ++
          slice flags j4 j5 ++ slice flags j5 j6 ++ slice flags j6 j7
        = slice flags 0 j7 := by rw [c2, c3, c4, c5, c6, c7]
      _ = flags := by rw [h7, slice_zero_length]

/-- C9 witness: a concrete specification exercising all seven pieces. -/
theorem splitFlags_partition_witness :
    (splitFlags "*<+#08.3f".toList).err = none ∧
    ∃ i1 i2 i3 i4 i5 i6 i7 : Nat,
      i1 ≤ i2 ∧ i2 ≤ i3 ∧ i3 ≤ i4 ∧ i4 ≤ i5 ∧ i5 ≤ i6 ∧ i6 ≤ i7 ∧
      i7 = "*<+#08.3f".toList.length ∧
      (splitFlags "*<+#08.3f".toList).align = slice "*<+#08.3f".toList 0 i1 ∧
      (splitFlags "*<+#08.3f".toList).sign = slice "*<+#08.3f".toList i1 i2 ∧
      (splitFlags "*<+#08.3f".toList).radix = slice "*<+#08.3f".toList i2 i3 ∧
      (splitFlags "*<+#08.3f".toList).zeroPad = slice "*<+#08.3f".toList i3 i4 ∧
      (splitFlags "*<+#08.3f".toList).minWidth = slice "*<+#08.3f".toList i4 i5 ∧
      (splitFlags "*<+#08.3f".toList).precision = slice "*<+#08.3f".toList i5 i6 ∧
      (splitFlags "*<+#08.3f".toList).verb = slice "*<+#08.3f".toList i6 i7 ∧
      (splitFlags "*<+#08.3f".toList).align ++ (splitFlags "*<+#08.3f".toList).sign ++
        (splitFlags "*<+#08.3f".toList).radix ++ (splitFlags "*<+#08.3f".toList).zeroPad ++
        (splitFlags "*<+#08.3f".toList).minWidth ++ (splitFlags "*<+#08.3f".toList).precision ++
        (splitFlags "*<+#08.3f".toList).verb = "*<+#08.3f".toList :=
  ⟨by decide, splitFlags_partition "*<+#08.3f".toList (by decide)⟩

/-! ## Claim C7 -/

/-- C7: whenever input remains unconsumed after the seven parsing stages,
parsing the specification returns an error whose message names (contains) the
offending specification string; in particular expanding `"{:q}"` against the
argument `1` yields such an error naming `"q"`. -/
theorem parseFlags_leftover_error :
    (∀ s : Str, s ≠ [] → consumedEnd s < s.length →
      ∃ e, parseFlags s = Except.error e ∧ ∃ a b, e = a ++ s ++ b) ∧
    (∃ m, Fmt "\x7b:q\x7d".toList [Value.int 1] = FmtRes.err m ∧
      ∃ a b, m = a ++ "q".toList ++ b) := by
  constructor
  · intro s hs hlt
    simp only [consumedEnd, if_neg hs] at hlt
    have herr : (splitFlags s).err =
        some ("Could not decode format specification: ".toList ++ s) := by
      simp only [splitFlags, if_neg hs]
      rw [if_pos hlt]
    refine ⟨"Invalid flag pattern: ".toList ++ s ++ ", ".toList ++
      ("Could not decode format specification: ".toList ++ s), ?_,
      "Invalid flag pattern: ".toList,
      ", ".toList ++ ("Could not decode format specification: ".toList ++ s), ?_⟩
    · simp only [parseFlags, if_neg hs, herr]
    · simp [List.append_assoc]
  · exact ⟨"Invalid flag pattern: q, Could not decode format specification: q".toList,
      by decide, "Invalid flag pattern: ".toList,
      ", Could not decode format specification: q".toList, by decide⟩

/-- C7 witness: the universal part applied at the concrete leftover spec `"q"`. -/
theorem parseFlags_leftover_error_witness :
    ∃ e, parseFlags ['q'] = Except.error e ∧ ∃ a b, e = a ++ ['q'] ++ b :=
  parseFlags_leftover_error.1 ['q'] (by decide) (by decide)

/-! ## Width lemmas (Claim C2) -/

theorem writeAlignedRight_length (s : Str) (width : Int) (f : Char) :
    width ≤ ((writeAlignedRight s width f).length : Int) := by
  unfold writeAlignedRight
  split
  · rename_i hge
    exact hge
  · rename_i hlt
    push_neg at hlt
    simp only [List.length_append, List.length_replicate]
    push_cast
    omega

theorem WriteAlignedString_length (s : Str) (align : Align) (width : Int) (f : Char)
    (out : Str) (ha : align ≠ Align.noAlign)
    (h : WriteAlignedString s align width f = some out) :
    width ≤ (out.length : Int) := by
  unfold WriteAlignedString at h
  split at h
  · rename_i hguard
    obtain rfl : s = out := by injection h
    rcases hguard with hge | hno
    · exact hge
    · exact absurd hno ha
  · rename_i hguard
    push_neg at hguard
    obtain ⟨hlt, -⟩ := hguard
    cases align with
    | noAlign => exact absurd rfl ha
    | right =>
      dsimp only at h
      obtain rfl : _ = out := by injection h
      simp only [List.length_append, List.length_replicate]
      push_cast
      omega
    | left =>
      dsimp only at h
      obtain rfl : _ = out := by injection h
      simp only [List.length_append, List.length_replicate]
      push_cast
      omega
    | center =>
      dsimp only at h
      obtain rfl : _ = out := by injection h
      have h0 : (0 : Int) ≤ (width - s.length) / 2 :=
        Int.ediv_nonneg (by omega) (by omega)
      have h1 : (width - s.length) / 2 ≤ width - s.length :=
        Int.ediv_le_self _ (by omega)
      simp only [List.length_append, List.length_replicate]
      push_cast
      omega
    | padSign =>
      cases s with
      | nil => exact Option.noConfusion h
      | cons c rest =>
        dsimp only at h
        split at h
        · obtain rfl : _ = out := by injection h
          have hr := writeAlignedRight_length rest (width - 1) f
          simp only [List.length_cons]
          push_cast at hr ⊢
          omega
        · obtain rfl : _ = out := by injection h
          exact writeAlignedRight_length _ _ _

/-- C2 (amended): for every field whose final write runs with an explicit
alignment mode (left, right, pad-after-sign or center — not none), the text
appended for the field is at least the requested minimum width long, for
every fill character, sign and radix setting. -/
theorem finalWrite_min_width (str : Str) (align : Align) (width : Int) (fill : Char)
    (sign : Str) (showR : Bool) (out : Str) (ha : align ≠ Align.noAlign)
    (h : finalWrite str align width fill sign showR = some out) :
    width ≤ (out.length : Int) := by
  unfold finalWrite at h
  set trip := (match str with
    | [] => (([] : Str), ([] : Str), width)
    | c :: rest =>
      if c ≠ '(' ∧ (align = Align.left ∨ align = Align.padSign) then
        if c = '-' then ((['-'] : Str), rest, width - 1)
        else if c = '+' then ((['+'] : Str), rest, width - 1)
        else if c = ' ' then (([' '] : Str), rest, width - 1)
        else (sign, c :: rest, width)
      else (([] : Str), c :: rest, width)) with htrip
  obtain ⟨pre, s2, w2⟩ := trip
  have key : width ≤ (pre.length : Int) + w2 := by
    cases str with
    | nil =>
      obtain ⟨rfl, rfl, rfl⟩ : pre = [] ∧ s2 = [] ∧ w2 = width := by
        simpa using htrip
      simp
    | cons c rest =>
      dsimp only at htrip
      split at htrip
      · split at htrip
        · obtain ⟨rfl, rfl, rfl⟩ : pre = ['-'] ∧ s2 = rest ∧ w2 = width - 1 := by
            simpa using htrip
          simp
        · split at htrip
          · obtain ⟨rfl, rfl, rfl⟩ : pre = ['+'] ∧ s2 = rest ∧ w2 = width - 1 := by
              simpa using htrip
            simp
          · split at htrip
            · obtain ⟨rfl, rfl, rfl⟩ : pre = [' '] ∧ s2 = rest ∧ w2 = width - 1 := by
                simpa using htrip
              simp
            · obtain ⟨h1, rfl, rfl⟩ : pre = sign ∧ s2 = c :: rest ∧ w2 = width := by
                simpa using htrip
              have hnn : (0 : Int) ≤ (List.length pre : Int) := Int.natCast_nonneg _
              omega
      · obtain ⟨rfl, rfl, rfl⟩ : pre = [] ∧ s2 = c :: rest ∧ w2 = width := by
          simpa using htrip
        simp
  dsimp only at h
  split at h
  · split at h
    · exact Option.noConfusion h
    · rename_i hcond hlen2
      push_neg at hlen2
      cases hwa : WriteAlignedString (s2.drop 2) align (w2 - 2) fill with
      | none => rw [hwa] at h; exact Option.noConfusion h
      | some t =>
        rw [hwa] at h
        obtain rfl : pre ++ s2.take 2 ++ t = out := by injection h
        have hw := WriteAlignedString_length _ _ _ _ _ ha hwa
        simp only [List.length_append, List.length_take]
        push_cast
        omega
  · cases hwa : WriteAlignedString s2 align w2 fill with
    | none => rw [hwa] at h; exact Option.noConfusion h
    | some t =>
      rw [hwa] at h
      obtain rfl : pre ++ t = out := by injection h
      have hw := WriteAlignedString_length _ _ _ _ _ ha hwa
      simp only [List.length_append]
      push_cast
      omega

/-- C2 (amended) witness: right alignment, width 5, natural length 2. -/
theorem finalWrite_min_width_witness :
    finalWrite "ab".toList Align.right 5 (Char.ofNat 0) [] false = some "   ab".toList ∧
    (5 : Int) ≤ ("   ab".toList.length : Int) :=
  ⟨by decide, finalWrite_min_width "ab".toList Align.right 5 (Char.ofNat 0) [] false
    "   ab".toList (by decide) (by decide)⟩

/-- C2 counterexample: the claim quantifies over every alignment mode
*including none*; with alignment `none` (spec `"5"`: width 5, no alignment
token) the requested width is never applied — the field renders at its
natural length 2 < 5. -/
theorem width_not_applied_for_no_alignment :
    Fmt "\x7b:5\x7d".toList [Value.str "ab".toList] = FmtRes.ok "ab".toList ∧
    ("ab".toList.length : Int) < 5 := by
  constructor
  · decide
  · decide

/-! ## Claim C6 -/

/-- C6: for every field written with pad-after-sign alignment whose rendered
text begins with a sign character (`-`, `+`, or the space sign), that sign
character is the first character of the field's output — no fill character
precedes it — for every width, fill character, configured sign string and
radix setting. -/
theorem padSign_sign_first (c : Char) (rest : Str) (width : Int) (fill : Char)
    (sign : Str) (showR : Bool) (out : Str)
    (hc : c = '-' ∨ c = '+' ∨ c = ' ')
    (h : finalWrite (c :: rest) Align.padSign width fill sign showR = some out) :
    ∃ t, out = c :: t := by
  unfold finalWrite at h
  have hg : (c ≠ '(' ∧ (Align.padSign = Align.left ∨ Align.padSign = Align.padSign)) := by
    rcases hc with rfl | rfl | rfl <;> exact ⟨by decide, Or.inr rfl⟩
  dsimp only at h
  rw [if_pos hg] at h
  rcases hc with rfl | rfl | rfl
  · rw [if_pos rfl] at h
    dsimp only at h
    split at h
    · split at h
      · exact Option.noConfusion h
      · cases hwa : WriteAlignedString (rest.drop 2) Align.padSign (width - 1 - 2) fill with
        | none => rw [hwa] at h; exact Option.noConfusion h
        | some t =>
          rw [hwa] at h
          obtain rfl : ['-'] ++ rest.take 2 ++ t = out := by injection h
          exact ⟨rest.take 2 ++ t, by simp⟩
    · cases hwa : WriteAlignedString rest Align.padSign (width - 1) fill with
      | none => rw [hwa] at h; exact Option.noConfusion h
      | some t =>
        rw [hwa] at h
        obtain rfl : ['-'] ++ t = out := by injection h
        exact ⟨t, by simp⟩
  · rw [if_neg (show ¬('+' : Char) = '-' by decide), if_pos rfl] at h
    dsimp only at h
    split at h
    · split at h
      · exact Option.noConfusion h
      · cases hwa : WriteAlignedString (rest.drop 2) Align.padSign (width - 1 - 2) fill with
        | none => rw [hwa] at h; exact Option.noConfusion h
        | some t =>
          rw [hwa] at h
          obtain rfl : ['+'] ++ rest.take 2 ++ t = out := by injection h
          exact ⟨rest.take 2 ++ t, by simp⟩
    · cases hwa : WriteAlignedString rest Align.padSign (width - 1) fill with
      | none => rw [hwa] at h; exact Option.noConfusion h
      | some t =>
        rw [hwa] at h
        obtain rfl : ['+'] ++ t = out := by injection h
        exact ⟨t, by simp⟩
  · rw [if_neg (show ¬(' ' : Char) = '-' by decide), if_neg (show ¬(' ' : Char) = '+' by decide), if_pos rfl] at h
    dsimp only at h
    split at h
    · split at h
      · exact Option.noConfusion h
      · cases hwa : WriteAlignedString (rest.drop 2) Align.padSign (width - 1 - 2) fill with
        | none => rw [hwa] at h; exact Option.noConfusion h
        | some t =>
          rw [hwa] at h
          obtain rfl : [' '] ++ rest.take 2 ++ t = out := by injection h
          exact ⟨rest.take 2 ++ t, by simp⟩
    · cases hwa : WriteAlignedString rest Align.padSign (width - 1) fill with
      | none => rw [hwa] at h; exact Option.noConfusion h
      | some t =>
        rw [hwa] at h
        obtain rfl : [' '] ++ t = out := by injection h
        exact ⟨t, by simp⟩

/-- C6 witness: zero-filled pad-after-sign write of `-42` at width 6. -/
theorem padSign_sign_first_witness :
    finalWrite "-42".toList Align.padSign 6 '0' [] false = some "-00042".toList ∧
    ∃ t, "-00042".toList = '-' :: t :=
  ⟨by decide, padSign_sign_first '-' "42".toList 6 '0' [] false "-00042".toList
    (Or.inl rfl) (by decide)⟩

/-! ## Claim C5 -/

theorem sprintf_b_neg (n : Int) (hn : n < 0) :
    sprintf [] [] [] [] ['b'] (Value.int n) = '-' :: Nat.toDigits 2 n.natAbs := by
  simp [sprintf, signWrap, if_pos hn]

theorem spliceRadix_neg_head (pfx : Str) (d : Str) :
    spliceRadix pfx (Char.ofNat 0) [] ('-' :: d) = '-' :: (pfx ++ d) := by
  unfold spliceRadix
  have h1 : ('-' :: d).dropWhile (fun c => decide (c = ' ')) = '-' :: d := by
    simp [List.dropWhile_cons]
  have h2 : ¬ (('-' :: d) = [Char.ofNat 0]) := by
    intro hco
    have : '-' = Char.ofNat 0 := by injection hco
    exact absurd this (by decide)
  have h3 : ('-' :: d).dropWhile (fun c => decide (c = Char.ofNat 0)) = '-' :: d := by
    simp [List.dropWhile_cons]
  simp only [h1, ne_eq, h2, not_false_eq_true, if_true, h3]

theorem finalWrite_noAlign (s : Str) (w : Int) (fill : Char) (sign : Str) (showR : Bool) :
    finalWrite s Align.noAlign w fill sign showR = some s := by
  unfold finalWrite
  have hwa : WriteAlignedString s Align.noAlign w fill = some s := by
    unfold WriteAlignedString
    rw [if_pos (Or.inr rfl)]
  cases s with
  | nil =>
    dsimp only
    rw [if_neg (by simp)]
    rw [hwa]
    rfl
  | cons c rest =>
    dsimp only
    rw [if_neg (by simp), if_neg (by simp)]
    rw [hwa]
    rfl

/-- Evaluation of `render` with the directive parsed from `"#b"` on a negative integer:
prefix spliced in after the sign. -/
theorem render_hashb (n : Int) (hn : n < 0) :
    render { showRadix := true, renderVerb := ['b'] } (Value.int n) =
      RRes.ok ('-' :: '0' :: 'b' :: Nat.toDigits 2 n.natAbs) := by
  unfold render
  simp [sprintf_b_neg n hn, spliceRadix_neg_head, finalWrite_noAlign]

set_option smartUnfolding false in
/-- Reduction: `Fmt "{:#b}"` on a single value reduces to the renderer's output on the
`"#b"` directive. -/
theorem Fmt_hashb_eq (v : Value) :
    Fmt "\x7b:#b\x7d".toList [v] =
      (match render { showRadix := true, renderVerb := ['b'] } v with
        | RRes.ok out => FmtRes.ok (out ++ [])
        | RRes.err e => FmtRes.err e
        | RRes.panic => FmtRes.panic) := by
  have h0 : doFormatLoop [v] ("\x7b:#b\x7d".toList.length + 1) "\x7b:#b\x7d".toList 0 [] =
      (match render { showRadix := true, renderVerb := ['b'] } v with
        | RRes.ok out => doFormatLoop [v] 5 [] 1 out
        | RRes.err e => DoRes.err [] e
        | RRes.panic => DoRes.panic []) := rfl
  have h1 : ∀ out : Str, doFormatLoop [v] 5 [] 1 out = DoRes.ok (out ++ []) := fun _ => rfl
  unfold Fmt doFormat
  rw [h0]
  cases render { showRadix := true, renderVerb := ['b'] } v with
  | ok out =>
    dsimp only
    rw [h1 out]
  | err e => rfl
  | panic => rfl

/-- C5: with `showRadix` set and a radix verb, the marker sits after the sign:
for every negative integer `n`, spec `"#b"` renders `-0b` followed by the
binary digits of `|n|`; and `-10` with spec `"#x"` renders `-0xa`. -/
theorem radix_prefix_after_sign :
    (∀ n : Int, n < 0 →
      Fmt "\x7b:#b\x7d".toList [Value.int n] =
        FmtRes.ok ("-0b".toList ++ Nat.toDigits 2 n.natAbs)) ∧
    Fmt "\x7b:#x\x7d".toList [Value.int (-10)] = FmtRes.ok "-0xa".toList := by
  constructor
  · intro n hn
    rw [Fmt_hashb_eq (Value.int n), render_hashb n hn]
    simp
  · decide

/-- C5 witness: the universal part at `n = -5` (binary digits `101`). -/
theorem radix_prefix_after_sign_witness :
    Fmt "\x7b:#b\x7d".toList [Value.int (-5)] =
      FmtRes.ok ("-0b".toList ++ Nat.toDigits 2 (Int.natAbs (-5))) :=
  radix_prefix_after_sign.1 (-5) (by decide)

/-! ## Claim C4 -/

/-- C4: the percent verb raises the effective precision handed to the
fixed-point formatter by two (`.8` when no precision is given), and the
rendered string has its decimal point shifted two places right with `%`
appended: `0.5` at precision 0 gives `50%`, `0.005` at precision 2 gives
`0.50%` (leading zero of the shifted digits dropped), and a negative value
keeps its leading `-`. -/
theorem percent_precision_adjust :
    (setupPercent [] = Except.ok ".8".toList) ∧
    (∀ (p : Str) (k : Int), parseIntGo p = some k →
      setupPercent ('.' :: p) = Except.ok ('.' :: intDec (k + 2))) ∧
    Fmt "\x7b:.0%\x7d".toList [Value.float 1 2] = FmtRes.ok "50%".toList ∧
    Fmt "\x7b:.2%\x7d".toList [Value.float 1 200] = FmtRes.ok "0.50%".toList ∧
    Fmt "\x7b:.0%\x7d".toList [Value.float (-1) 2] = FmtRes.ok "-50%".toList := by
  refine ⟨rfl, ?_, by decide, by decide, by decide⟩
  intro p k hp
  unfold setupPercent
  rw [if_neg (by simp)]
  show (match parseIntGo p with
    | none => Except.error "setupPercent: invalid precision".toList
    | some k' => Except.ok ('.' :: intDec (k' + 2))) = _
  rw [hp]

/-- C4 witness: precision `.0` becomes `.2` through `setupPercent`. -/
theorem percent_precision_adjust_witness :
    parseIntGo ['0'] = some 0 ∧ setupPercent ('.' :: ['0']) = Except.ok ('.' :: intDec 2) :=
  ⟨by decide, percent_precision_adjust.2.1 ['0'] 0 (by decide)⟩

/-! ## Claim C8 -/

/-- C8: expansion is all-or-nothing — whenever the driver loop fails with an
error, the entry points return the error alone, discarding the partial buffer
`buf` accumulated before the failure; this holds for `Fmt` (first driver) and
for the `Format`/`FormatMap`/`FormatStruct` shape (second driver) with any
argument resolver. -/
theorem error_discards_partial_output :
    (∀ (format : Str) (args : List Value) (buf m : Str),
      doFormat format args = DoRes.err buf m → Fmt format args = FmtRes.err m) ∧
    (∀ (σ : Type) (resolve : Str → σ → Except Str (Value × σ)) (format : Str) (st : σ)
      (buf m : Str),
      doFormatLoop1 resolve (format.length + 1) format st [] = DoRes.err buf m →
      formatWith resolve format st = FmtRes.err m) := by
  constructor
  · intro format args buf m h
    unfold Fmt
    rw [h]
  · intro σ resolve format st buf m h
    unfold formatWith
    rw [h]

/-- C8 witness: a template failing after partial literal output was already
written (`"a}}b}"`: the chunk `"a"` is flushed by the `}}` escape before the
lone `}` error): the caller sees only the error, not the buffered `"a"`. -/
theorem error_discards_partial_output_witness :
    doFormat "a\x7d\x7db\x7d".toList [] =
      DoRes.err "a".toList "Single '\x7d' encountered in format string".toList ∧
    Fmt "a\x7d\x7db\x7d".toList [] = FmtRes.err "Single '\x7d' encountered in format string".toList :=
  ⟨by decide, error_discards_partial_output.1 "a\x7d\x7db\x7d".toList [] "a".toList
    "Single '\x7d' encountered in format string".toList (by decide)⟩

/-! ## Claim C1 -/

/-- C1: contrary to the specification, a template with an unmatched opening
brace does not produce a `TemplateError`: the tokenizer evaluates `format[i]`
at `i = end` and aborts (Go index-out-of-range panic), both for a trailing
`"{"` and for an unterminated field body; the `Single '\x7b'` error return in
the source is unreachable. -/
theorem unmatched_open_brace_panics :
    Fmt "\x7b".toList [] = FmtRes.panic ∧
    Fmt "\x7b:d".toList [Value.int 1] = FmtRes.panic ∧
    doFormat "\x7bx".toList [] = DoRes.panic [] := by
  exact ⟨by decide, by decide, by decide⟩

/-! ## Claim C3 -/

/-- C3 counterexample: expanding `"{:^6}"` against `"ab"` yields `"  ab  "`
(2 left, 2 right: pad-before is `(6-2)/2 = 2`), not the claimed `" ab   "`. -/
theorem center_ab_not_one_left :
    Fmt "\x7b:^6\x7d".toList [Value.str "ab".toList] = FmtRes.ok "  ab  ".toList ∧
    "  ab  ".toList ≠ " ab   ".toList := by
  exact ⟨by decide, by decide⟩

/-- C3 (amended): expanding `"{:^6}"` against `"ab"` returns `"  ab  "` —
two fill spaces on each side, since `(width - length) / 2 = 2`. -/
theorem center_ab_two_two :
    Fmt "\x7b:^6\x7d".toList [Value.str "ab".toList] = FmtRes.ok "  ab  ".toList := by
  decide

/-! ## Claim C10 -/

/-- C10: `WriteAlignedString` is not total — on the empty string with
pad-after-sign alignment and positive width the source indexes `s[0]` out of
range (modelled `none`); the panic is reachable from the public API
(`Fmt "{:=1}"` against `""`). -/
theorem writeAligned_empty_padSign_panics :
    WriteAlignedString [] Align.padSign 1 ' ' = none ∧
    Fmt "\x7b:=1\x7d".toList [Value.str []] = FmtRes.panic := by
  exact ⟨by decide, by decide⟩

end Pyfmt
